import Mathlib

/-!
Shallow embedding of parts of the diive quality-control library
(absolute-limit outlier flagging, local-outlier-factor flagging,
NEP-penalty critical-day computations, and the meteoscreening
time-resolution harmonization), together with theorems settling the
frozen claims about the natural-language specification.

Conventions of the embedding:
* pandas Series are lists of (timestamp, optional value) pairs; a `none`
  value plays the role of NaN.  Comparisons against NaN are false, as in
  pandas/numpy.
* numeric values are rationals (the claims under study do not hinge on
  binary floating-point rounding).
* timestamps are integers (seconds).
-/

namespace Diive

/-- A pandas Series: (timestamp, optional value) records. -/
abbrev SeriesQ := List (Int × Option ℚ)

/-- Comparison `x >= c` under pandas NaN semantics: false when `x` is missing. -/
def optGe (x : Option ℚ) (c : ℚ) : Bool :=
  match x with
  | none => false
  | some v => c ≤ v

/-- Comparison `x <= c` under pandas NaN semantics: false when `x` is missing. -/
def optLe (x : Option ℚ) (c : ℚ) : Bool :=
  match x with
  | none => false
  | some v => v ≤ c

/-- Comparison `x < c` under pandas NaN semantics: false when `x` is missing. -/
def optLt (x : Option ℚ) (c : ℚ) : Bool :=
  match x with
  | none => false
  | some v => v < c

/-- Comparison `x > c` under pandas NaN semantics: false when `x` is missing. -/
def optGt (x : Option ℚ) (c : ℚ) : Bool :=
  match x with
  | none => false
  | some v => c < v

/-! ## AbsoluteLimits (src/diive/pkgs/outlierdetection/absolutelimits.py)

`AbsoluteLimits._flagtests` computes
  ok       = (self.series >= min) | (self.series <= max)
  rejected = (self.series < min)  | (self.series > max)
and returns the timestamps where the respective boolean mask is true.
Note the `|` in the ok mask: this is translated literally. -/

/-- The ok mask of `AbsoluteLimits._flagtests`: `(v >= lo) | (v <= hi)`. -/
def absLimOkMask (lo hi : ℚ) (x : Option ℚ) : Bool :=
  optGe x lo || optLe x hi

/-- The rejected mask of `AbsoluteLimits._flagtests`: `(v < lo) | (v > hi)`. -/
def absLimRejMask (lo hi : ℚ) (x : Option ℚ) : Bool :=
  optLt x lo || optGt x hi

/-- Embedding of `AbsoluteLimits._flagtests(min, max)`: the pair of index sets
(ok, rejected) returned by the single-range absolute-limits test. -/
def absLimFlagtests (series : SeriesQ) (lo hi : ℚ) : List Int × List Int :=
  ((series.filter (fun r => absLimOkMask lo hi r.2)).map (fun r => r.1),
   (series.filter (fun r => absLimRejMask lo hi r.2)).map (fun r => r.1))

/-! ## NEPpenalty percentage branch
(src/diive - Copy/pkgs/flux/nep_penalty.py, plot_cumulatives, year branch)

  if (obs > 0) and (pot > 0) and (pot > obs): penalty_perc = (pot-obs)/pot*100
  elif (obs < 0) and (pot < 0) and (pot < obs): penalty_perc = (pot-obs)/abs(pot)*100
  else: penalty_perc = -9999
-/

/-- Embedding of the per-year percentage-penalty branch of
`NEPpenalty.plot_cumulatives`. -/
def penaltyPercYear (obs pot : ℚ) : ℚ :=
  if 0 < obs ∧ 0 < pot ∧ obs < pot then (pot - obs) / pot * 100
  else if obs < 0 ∧ pot < 0 ∧ pot < obs then (pot - obs) / |pot| * 100
  else -9999

/-- The PENALTY column of `_calculate_penalty`: per-timestep
`potential (gap-filled, limited) minus observed` NEP; the yearly PENALTY is
its sum over the year. -/
def penaltyColumn (potential observed : List ℚ) : List ℚ :=
  List.zipWith (fun p o => p - o) potential observed

/-! ## NEPpenalty result properties
(src/diive - Copy/pkgs/flux/nep_penalty.py, __init__ and the @property getters)

A minimal model of Python attribute access: an object is a list of named
attribute slots; reading an attribute that was never assigned raises
AttributeError, everything else follows the property bodies literally. -/

/-- Simplified Python values: None, a DataFrame, an int, or some other
object (used for the gap-filling results tuple). -/
inductive PyVal where
  | pyNone : PyVal
  | pyDf : PyVal
  | pyInt : Int → PyVal
  | pyObj : PyVal
deriving DecidableEq

/-- Python errors raised by the result properties: AttributeError for a slot
that was never assigned, or an Exception with a message. -/
inductive PyErr where
  | attributeError : String → PyErr
  | exceptionMsg : String → PyErr
deriving DecidableEq

/-- A Python object modelled as its instance-attribute dictionary. -/
abbrev PyObj := List (String × PyVal)

/-- Python attribute access: a missing slot raises AttributeError. -/
def pyGetattr (o : PyObj) (a : String) : Except PyErr PyVal :=
  match o.lookup a with
  | some v => Except.ok v
  | none => Except.error (PyErr.attributeError a)

/-- Python `isinstance(v, DataFrame)`. -/
def isDataFrame : PyVal → Bool
  | PyVal.pyDf => true
  | _ => false

/-- Python `isinstance(v, int)`. -/
def isPyInt : PyVal → Bool
  | PyVal.pyInt _ => true
  | _ => false

/-- Python truthiness of the modelled values (`if not self._gf_results`). -/
def pyTruthy : PyVal → Bool
  | PyVal.pyNone => false
  | PyVal.pyInt n => n ≠ 0
  | _ => true

/-- The instance attributes set by `NEPpenalty.__init__` for the
gap-filling results; note that `_penalty_per_year_df` is not among them. -/
def nepPenaltyInitAttrs : PyObj :=
  [("_gapfilled_df", PyVal.pyNone),
   ("_gf_results", PyVal.pyNone),
   ("_penalty_hires_df", PyVal.pyNone),
   ("_penalty_min_year", PyVal.pyNone)]

/-- Property `NEPpenalty.penalty_hires_df`. -/
def penaltyHiresDf (o : PyObj) : Except PyErr PyVal := do
  let v ← pyGetattr o "_penalty_hires_df"
  if isDataFrame v then pure v
  else Except.error (PyErr.exceptionMsg "No gap-filled data found")

/-- Property `NEPpenalty.penalty_per_year_df`. -/
def penaltyPerYearDf (o : PyObj) : Except PyErr PyVal := do
  let v ← pyGetattr o "_penalty_per_year_df"
  if isDataFrame v then pure v
  else Except.error (PyErr.exceptionMsg "No gap-filled data found")

/-- Property `NEPpenalty.penalty_min_year`. -/
def penaltyMinYear (o : PyObj) : Except PyErr PyVal := do
  let v ← pyGetattr o "_penalty_min_year"
  if isPyInt v then pure v
  else Except.error (PyErr.exceptionMsg "No gap-filled data found")

/-- Property `NEPpenalty.gapfilled_df`. -/
def gapfilledDf (o : PyObj) : Except PyErr PyVal := do
  let v ← pyGetattr o "_gapfilled_df"
  if isDataFrame v then pure v
  else Except.error (PyErr.exceptionMsg "No gap-filled data found")

/-- Property `NEPpenalty.gf_results`. -/
def gfResults (o : PyObj) : Except PyErr PyVal := do
  let v ← pyGetattr o "_gf_results"
  if pyTruthy v then pure v
  else Except.error (PyErr.exceptionMsg "No gap-filled data found")

/-! ## NEPpenalty critical-day classification and per-year CRD counts
(src/diive - Copy/pkgs/flux/nep_penalty.py, _limit_crd_data and
_calculate_penalty)

One record of the high-resolution penalty frame carries the daily
aggregation bucket it belongs to, its calendar month and year, and a VPD
value.  `_limit_crd_data` broadcasts the daily VPD maximum into every
record of the day (insert_aggregated_in_hires) and classifies records by
  ncrds_ix = (agg >= thres_ncrd_lower) & (agg < thres_crd) & month window
  crds_ix  = (agg >= thres_crd) & month window
`_calculate_penalty` separately counts, per year and with no month
restriction, the days whose daily VPD maximum is strictly above
thres_crd. -/

/-- One half-hourly record of the penalty frame: `day` is the daily
aggregation bucket (year paired with a day identifier), `month` the
calendar month of the timestamp, `vpd` the VPD value (possibly missing). -/
structure PRec where
  day : Int × Int
  month : Int
  vpd : Option ℚ
deriving DecidableEq

/-- Modelled from the spec: `insert_aggregated_in_hires(col, to_freq='D',
to_agg='max', ...)` lives in diive.core.dfun.frames, which is not among the
provided sources; per the spec it classifies "each day by its daily maximum
of the threshold variable", so the aggregate of a day is the maximum of the
non-missing VPD values recorded in that day's bucket (NaN when the bucket is
empty, as for a pandas max over no values). -/
def dailyMax (df : List PRec) (d : Int × Int) : Option ℚ :=
  (df.filterMap (fun r => if r.day = d then r.vpd else none)).foldl
    (fun acc v =>
      match acc with
      | none => some v
      | some m => some (max m v)) none

/-- The month-of-year window test shared by both classifications:
`(df.index.month >= penalty_start_month) & (df.index.month <= penalty_end_month)`. -/
def inPenaltyWindow (startMonth endMonth : Int) (r : PRec) : Bool :=
  decide (startMonth ≤ r.month) && decide (r.month ≤ endMonth)

/-- The near-critical-day mask `ncrds_ix` of `_limit_crd_data`. -/
def ncrdMask (df : List PRec) (lower crd : ℚ) (sm em : Int) (r : PRec) : Bool :=
  optGe (dailyMax df r.day) lower && optLt (dailyMax df r.day) crd &&
    inPenaltyWindow sm em r

/-- The critical-day mask `crds_ix` of `_limit_crd_data`. -/
def crdMask (df : List PRec) (crd : ℚ) (sm em : Int) (r : PRec) : Bool :=
  optGe (dailyMax df r.day) crd && inPenaltyWindow sm em r

/-- The FLAG_nCRD column of `_limit_crd_data`: 1 on `ncrds_ix`, else 0. -/
def flagNCRD (df : List PRec) (lower crd : ℚ) (sm em : Int) (r : PRec) : ℕ :=
  if ncrdMask df lower crd sm em r then 1 else 0

/-- The FLAG_CRD column of `_limit_crd_data`: 1 on `crds_ix`, else 0. -/
def flagCRD (df : List PRec) (crd : ℚ) (sm em : Int) (r : PRec) : ℕ :=
  if crdMask df crd sm em r then 1 else 0

/-- The distinct daily buckets appearing in the frame (the daily resample
index restricted to days that have records; empty days have a NaN maximum
and can never pass the threshold filter, so they are irrelevant below). -/
def distinctDays (df : List PRec) : List (Int × Int) :=
  (df.map (fun r => r.day)).dedup

/-- The days kept by `_num_crds.loc[_num_crds > self.thres_crd]` in
`_calculate_penalty`: daily VPD maximum strictly above the critical
threshold, with no month-of-year restriction. -/
def crdDaysAboveThres (df : List PRec) (thres : ℚ) : List (Int × Int) :=
  (distinctDays df).filter (fun d => optGt (dailyMax df d) thres)

/-- The `num_CRDs` entry of `penalty_per_year_df` for year `y`:
`_num_crds.groupby(year).count()` only contains years with at least one
qualifying day, and the column assignment aligns on the year index, so a
year with zero qualifying days receives a missing value. -/
def numCRDsEntry (df : List PRec) (thres : ℚ) (y : Int) : Option ℕ :=
  let c := ((crdDaysAboveThres df thres).filter (fun d => d.1 = y)).length
  if c = 0 then none else some c

/-- Claim-side count: the number of days of year `y` whose daily VPD
maximum strictly exceeds the threshold, over all months. -/
def countYearCRDs (df : List PRec) (thres : ℚ) (y : Int) : ℕ :=
  ((distinctDays df).filter
    (fun d => decide (d.1 = y) && optGt (dailyMax df d) thres)).length

/-- Replace the month of a record, keeping day bucket and VPD value:
used to state that the per-year CRD count is blind to months. -/
def setMonth (f : Int → Int) (r : PRec) : PRec :=
  { day := r.day, month := f r.month, vpd := r.vpd }

/-- Example record: June record of day (2020, 0) with VPD 1. -/
def exRecA : PRec := ⟨(2020, 0), 6, some 1⟩

/-- Example record: June record of day (2020, 1) with VPD 2. -/
def exRecB : PRec := ⟨(2020, 1), 6, some 2⟩

/-- Example penalty frame with two one-record days. -/
def exDf : List PRec := [exRecA, exRecB]

/-! ## Local outlier factor
(src/diive/pkgs/outlierdetection/lof.py and
src/diive - Copy/pkgs/outlierdetection/lof.py)

Both files define a module-level function `lof` that drops missing values,
runs scikit-learn's LocalOutlierFactor on the remaining values and collects
the results in a dataframe with columns SERIES_{suffix}, OUTLIER_{suffix}
and NOT_OUTLIER_{suffix}. -/

/-- An outlier-label assignment: given n_neighbors and contamination, one
label per sample (true where y_pred == -1, i.e. outlier).  Which samples
scikit-learn labels as outliers is opaque to the claims under study, so the
assignment is a parameter of the embedding. -/
abbrev LofDetector := ℕ → ℚ → List ℚ → List Bool

/-- Modelled external collaborator: scikit-learn
`LocalOutlierFactor(..., n_jobs=...).fit_predict(vals)`.  scikit-learn's
input validation (check_array with ensure_min_samples=1) raises ValueError
on an array with zero samples; on non-empty input one label per sample is
returned.  n_jobs only configures parallelism of the neighbor search and
does not influence the returned labels, which the model expresses by
ignoring the `nJobs` argument. -/
def skFitPredict (det : LofDetector) (nNeighbors : ℕ) (contamination : ℚ)
    (_nJobs : Int) (vals : List ℚ) : Except String (List Bool) :=
  if vals.isEmpty then
    Except.error
      "ValueError: Found array with 0 sample(s) while a minimum of 1 is required"
  else Except.ok (det nNeighbors contamination vals)

/-- The dropna of `series.copy().dropna()`: records that carry a value. -/
def dropna (series : SeriesQ) : List (Int × ℚ) :=
  series.filterMap (fun r => r.2.map (fun v => (r.1, v)))

/-- A small results dataframe: a common index plus named columns. -/
structure PdFrame where
  index : List Int
  cols : List (String × List (Option ℚ))
deriving DecidableEq

/-- Embedding of the function `lof` from src/diive (the version that takes
an `n_jobs` parameter and passes it on to scikit-learn).  The output frame
has the dropna index; OUTLIER holds the value where the sample was labelled
an outlier (NaN elsewhere, from index alignment of the outlier subseries),
NOT_OUTLIER is the series with outlier positions set to NaN. -/
def lofDiive (det : LofDetector) (series : SeriesQ) (nNeighbors : ℕ)
    (contamination : ℚ) (suffix : String) (nJobs : Int) :
    Except String PdFrame :=
  let s := dropna series
  let ix := s.map (fun r => r.1)
  let vals := s.map (fun r => r.2)
  match skFitPredict det nNeighbors contamination nJobs vals with
  | Except.error e => Except.error e
  | Except.ok yPred =>
      Except.ok
        { index := ix
          cols :=
            [("SERIES_" ++ suffix, vals.map some),
             ("OUTLIER_" ++ suffix,
               List.zipWith (fun v p => if p then some v else none) vals yPred),
             ("NOT_OUTLIER_" ++ suffix,
               List.zipWith (fun v p => if p then none else some v) vals yPred)] }

/-- Embedding of the function `lof` from the 'src/diive - Copy' tree: same
computation, with `n_jobs=-1` hardcoded in the LocalOutlierFactor call. -/
def lofCopy (det : LofDetector) (series : SeriesQ) (nNeighbors : ℕ)
    (contamination : ℚ) (suffix : String) : Except String PdFrame :=
  let s := dropna series
  let ix := s.map (fun r => r.1)
  let vals := s.map (fun r => r.2)
  match skFitPredict det nNeighbors contamination (-1) vals with
  | Except.error e => Except.error e
  | Except.ok yPred =>
      Except.ok
        { index := ix
          cols :=
            [("SERIES_" ++ suffix, vals.map some),
             ("OUTLIER_" ++ suffix,
               List.zipWith (fun v p => if p then some v else none) vals yPred),
             ("NOT_OUTLIER_" ++ suffix,
               List.zipWith (fun v p => if p then none else some v) vals yPred)] }

/-- The `.dropna().index` of one column of a results frame, as used for
`ok_daytime = daytime_df['NOT_OUTLIER_DAYTIME'].dropna().index` etc. -/
def colDropnaIndex (f : PdFrame) (name : String) : List Int :=
  match f.cols.lookup name with
  | none => []
  | some vs =>
      (f.index.zip vs).filterMap
        (fun p => match p.2 with
          | some _ => some p.1
          | none => none)

/-- The flag value at one timestamp after the four sequential `.loc`
assignments of `LocalOutlierFactorDaytimeNighttime._flagtests`
(ok_daytime := 0, rejected_daytime := 2, ok_nighttime := 0,
rejected_nighttime := 2; a later assignment overwrites an earlier one). -/
def dtntFlagAt (okDt rejDt okNt rejNt : List Int) (ts : Int) : Option ℚ :=
  if rejNt.contains ts then some 2
  else if okNt.contains ts then some 0
  else if rejDt.contains ts then some 2
  else if okDt.contains ts then some 0
  else none

/-- Embedding of `LocalOutlierFactorDaytimeNighttime._flagtests` from
src/diive/pkgs/outlierdetection/lof.py: run `lof` on the daytime partition
(with the instance's n_jobs) and on the nighttime partition (n_jobs left at
its default 1), then merge into the (ok, rejected, n_outliers) result.  An
exception raised inside either `lof` call propagates: the method has no
handler. -/
def lofDtntFlagtests (det : LofDetector) (filteredseries : SeriesQ)
    (isDaytime isNighttime : Int → Bool) (nNeighbors : ℕ) (contamination : ℚ)
    (nJobs : Int) : Except String (List Int × List Int × ℕ) :=
  let sDaytime := filteredseries.filter (fun r => isDaytime r.1)
  match lofDiive det sDaytime nNeighbors contamination "DAYTIME" nJobs with
  | Except.error e => Except.error e
  | Except.ok daytimeDf =>
      let sNighttime := filteredseries.filter (fun r => isNighttime r.1)
      match lofDiive det sNighttime nNeighbors contamination "NIGHTTIME" 1 with
      | Except.error e => Except.error e
      | Except.ok nighttimeDf =>
          let okDt := colDropnaIndex daytimeDf "NOT_OUTLIER_DAYTIME"
          let rejDt := colDropnaIndex daytimeDf "OUTLIER_DAYTIME"
          let okNt := colDropnaIndex nighttimeDf "NOT_OUTLIER_NIGHTTIME"
          let rejNt := colDropnaIndex nighttimeDf "OUTLIER_NIGHTTIME"
          let flag := filteredseries.map
            (fun r => (r.1, dtntFlagAt okDt rejDt okNt rejNt r.1))
          let ok := (flag.filter (fun p => p.2 == some 0)).map (fun p => p.1)
          let rejected := (flag.filter (fun p => p.2 == some 2)).map (fun p => p.1)
          Except.ok (ok, rejected, (flag.filter (fun p => p.2 == some 2)).length)

/-- A concrete detector labelling every sample an inlier, used to evaluate
the embedding at concrete inputs. -/
def noOutlierDet : LofDetector := fun _ _ vs => vs.map (fun _ => false)

/-! ## Mutation of caller dataframes
(src/diive - Copy/pkgs/flux/nep_penalty.py, __init__;
src/diive/pkgs/qaqc/meteoscreening.py, __init__, _setup_fields and
_make_timeres_groups)

Python objects live on a heap and are passed by reference; the model makes
the heap explicit as a store of dataframes keyed by object identity.
`data_detailed.copy()` on a dict copies only the mapping and keeps the
frame references shared with the caller, while `df.copy()` on a DataFrame
allocates a fresh frame. -/

/-- A stored dataframe: a timestamp index and named numeric columns. -/
structure StFrame where
  index : List Int
  cols : List (String × List ℚ)
deriving DecidableEq

/-- The store of allocated dataframes, keyed by object identity. -/
abbrev Store := List (ℕ × StFrame)

/-- Dereference an object identity. -/
def getFrame (st : Store) (i : ℕ) : Option StFrame :=
  st.lookup i

/-- In-place update of the frame stored under identity `i`. -/
def setFrame (st : Store) (i : ℕ) (f : StFrame) : Store :=
  st.map (fun p => if p.1 = i then (i, f) else p)

/-- Modelled from the spec: `detect_freq_groups` lives in
diive.core.times.times, which is not among the provided sources.  Per the
spec the harmonizer receives "one variable's history spanning possibly
multiple recorded sampling frequencies (each tagged with its interval in
seconds)", so the function tags every record with a sampling interval in
seconds, modelled as the gap to the preceding timestamp (the first record
reuses the following gap).  Only the fact that a per-record frequency
column is produced matters to the claims below, not its values. -/
def detectFreqGroups (index : List Int) : List ℚ :=
  match index with
  | [] => []
  | _ :: rest =>
      let gaps := List.zipWith (fun a b => ((b - a : Int) : ℚ)) index rest
      gaps.headD 0 :: gaps

/-- Embedding of `StepwiseMeteoScreeningDb._make_timeres_groups` as a store
effect: `data_detailed[groups_ser.name] = groups_ser` adds the column
FREQ_AUTO_SEC in place to the frame that `data_detailed` references. -/
def makeTimeresGroups (st : Store) (fid : ℕ) : Store :=
  match getFrame st fid with
  | none => st
  | some f =>
      setFrame st fid
        { index := f.index
          cols := f.cols ++ [("FREQ_AUTO_SEC", detectFreqGroups f.index)] }

/-- Caller-visible store effect of constructing StepwiseMeteoScreeningDb:
`self._data_detailed = data_detailed.copy()` is a shallow dict copy that
keeps the caller's frame identities, and `_setup_fields` then calls
`_make_timeres_groups` on each field's frame, mutating it in place.  The
remaining setup steps (_filter_data, _harmonize_timeresolution,
_sanitize_timestamp and the stored `.copy()`) rebind local names or
allocate fresh frames, leaving the caller's frames untouched, so they do
not appear in the caller-visible effect. -/
def mscrInitStore (st : Store) (dataDetailed : List (String × ℕ))
    (fields : List String) : Store :=
  fields.foldl
    (fun s fld =>
      match dataDetailed.lookup fld with
      | some fid => makeTimeresGroups s fid
      | none => s) st

/-- Multiply the entries of one column by a factor, leaving the other
columns unchanged (`self.df[nep_col] = self.df[nep_col].multiply(...)`). -/
def scaleColumn (f : StFrame) (name : String) (factor : ℚ) : StFrame :=
  { index := f.index
    cols := f.cols.map
      (fun c => if c.1 = name then (c.1, c.2.map (fun v => v * factor)) else c) }

/-- Caller-visible store effect of `NEPpenalty.__init__`: `self.df =
df.copy()` allocates a fresh frame holding a deep copy of the data, and the
unit conversion of the NEP column mutates only that fresh frame; all later
penalty processing starts from further copies of `self.df`. -/
def nepInitStore (st : Store) (freshId dfId : ℕ) (nepCol : String) : Store :=
  match getFrame st dfId with
  | none => st
  | some f => (freshId, scaleColumn f nepCol (792171 / 10000000)) :: st

/-! ## Time-resolution harmonization
(src/diive/pkgs/qaqc/meteoscreening.py, _harmonize_timeresolution,
_validate_n_grouprecords and _filter_data)

For a frequency group whose interval differs from the target frequency,
`_harmonize_timeresolution` builds
  start    = groupdf.index[0] - freq seconds
  hires_ix = date_range(start, groupdf.index[-1], freq=targetfreq seconds)
  limit    = int(freq / targetfreq - 1)
  out      = groupdf.reindex(hires_ix).fillna(method='backfill', limit=limit).iloc[1:]
The pandas pieces are embedded below with their documented semantics. -/

/-- The arithmetic timestamp grid with `n` slots spaced `t` apart starting
at `s0`. -/
def gridFrom (s0 : Int) (t : ℕ) : ℕ → List Int
  | 0 => []
  | n + 1 => s0 :: gridFrom (s0 + t) t n

/-- pandas `date_range(start, end=last, freq=t seconds)`: the grid
start, start+t, start+2t, … up to `last`. -/
def dateRange (start last : Int) (t : ℕ) : List Int :=
  gridFrom start t (((last - start).toNat / t) + 1)

/-- pandas `groupdf.reindex(hires_ix)` restricted to the value column: the
group's value at each grid slot, missing where the group has no record. -/
def reindexVals (group : SeriesQ) (ixs : List Int) : List (Option ℚ) :=
  ixs.map (fun ts => (group.lookup ts).join)

/-- The distance (in list positions) to the next non-missing entry of a
column, together with that entry's value. -/
def nextValid : List (Option ℚ) → Option (ℕ × ℚ)
  | [] => none
  | some v :: _ => some (0, v)
  | none :: rest => (nextValid rest).map (fun p => (p.1 + 1, p.2))

/-- The head entry of a pandas backward fill with limit `L`: a non-missing
entry is kept; a missing entry is filled with the next non-missing value
provided it is at most `L` positions away. -/
def bfillHead (L : ℕ) (x : Option ℚ) (rest : List (Option ℚ)) : Option ℚ :=
  match x with
  | some v => some v
  | none => (nextValid rest).bind (fun p => if p.1 + 1 ≤ L then some p.2 else none)

/-- pandas `fillna(method='backfill', limit=L)` on one column: each entry
filled by `bfillHead` against its tail, so that at most `L` consecutive
missing entries before a valid one are filled. -/
def bfillLimit (L : ℕ) : List (Option ℚ) → List (Option ℚ)
  | [] => []
  | x :: rest => bfillHead L x rest :: bfillLimit L rest

/-- Embedding of the coarse-group branch of
`StepwiseMeteoScreeningDb._harmonize_timeresolution`: reindex the group on
the hires grid that starts one coarse interval before its first timestamp,
backward-fill with limit `freq/targetfreq - 1`, and delete the first
(synthetic) timestamp with `iloc[1:]`.  Groups at the target frequency are
merged unchanged in the source and are not modelled here. -/
def harmonizeGroup (targetfreq freq : ℕ) (group : SeriesQ) : SeriesQ :=
  match group with
  | [] => []
  | g0 :: gs =>
      ((dateRange (g0.1 - (freq : Int)) (gs.getLastD g0).1 targetfreq).zip
        (bfillLimit (freq / targetfreq - 1)
          (reindexVals (g0 :: gs)
            (dateRange (g0.1 - (freq : Int)) (gs.getLastD g0).1 targetfreq)))).drop 1

/-- A fully observed coarse group viewed as a Series. -/
def toSeries (g : List (Int × ℚ)) : SeriesQ :=
  g.map (fun r => (r.1, some r.2))

/-- Claim-side description of the upsampling: a slot holds the value of the
first coarse record at or after it, backward-propagated over at most `L`
grid slots; slots further than `L` slots before the next record stay
missing. -/
def backProp (g : List (Int × ℚ)) (L t : ℕ) (s : Int) : Option ℚ :=
  (g.find? (fun r => decide (s ≤ r.1))).bind
    (fun r => if r.1 ≤ s + ((L * t : ℕ) : Int) then some r.2 else none)

/-- The total record count over all frequency groups
(`n_vals = group_counts.sum()` in `_validate_n_grouprecords`). -/
def totalCounts (groupCounts : List (ℕ × ℕ)) : ℚ :=
  (((groupCounts.map (fun p => p.2)).sum : ℕ) : ℚ)

/-- The percentage share of one frequency group,
`counts_perc = counts / n_vals * 100`. -/
def freqPerc (groupCounts : List (ℕ × ℕ)) (counts : ℕ) : ℚ :=
  ((counts : ℚ) / totalCounts groupCounts) * 100

/-- Embedding of `_validate_n_grouprecords`: a frequency is used when its
share of the total records is strictly above 0.01 percent
(`if counts_perc > 0.01`), otherwise it is ignored. -/
def usedFreqs (groupCounts : List (ℕ × ℕ)) : List ℕ :=
  (groupCounts.filter
    (fun p => decide ((1 : ℚ) / 100 < freqPerc groupCounts p.2))).map
    (fun p => p.1)

/-- One record of the multi-frequency history: its detected frequency group
(the FREQ_AUTO_SEC tag) and its (timestamp, value) row. -/
abbrev FreqRecord := ℕ × Int × Option ℚ

/-- Embedding of `_filter_data`: keep the records whose frequency is in the
used set (`data_detailed['FREQ_AUTO_SEC'].isin(used_freqs)`). -/
def filterData (records : List FreqRecord) (used : List ℕ) : List FreqRecord :=
  records.filter (fun r => used.contains r.1)

/-- The rows of one frequency group, as produced by
`data_detailed.groupby('FREQ_AUTO_SEC')`. -/
def rowsOfFreq (records : List FreqRecord) (f0 : ℕ) : SeriesQ :=
  (records.filter (fun r => r.1 == f0)).map (fun r => r.2)

end Diive

/-! ## Claim theorems -/

open Diive

/-- C1: the spec contract demands two disjoint index sets with
ok ↔ min ≤ value ≤ max.  Evaluating `AbsoluteLimits._flagtests` on the
series {0 ↦ 5, 1 ↦ 50} with min=16, max=84 shows the code violates it:
the timestamp 0 (value 5, below min) lands in the ok set — the ok mask
uses `|` instead of `&` — and in the rejected set at the same time, so the
sets overlap and the ok-iff-in-range equivalence fails. -/
theorem c1_abslim_flagtests_overlap :
    0 ∈ (absLimFlagtests [(0, some 5), (1, some 50)] 16 84).1 ∧
    0 ∈ (absLimFlagtests [(0, some 5), (1, some 50)] 16 84).2 ∧
    ¬ (16 ≤ (5 : ℚ) ∧ (5 : ℚ) ≤ 84) := by
  decide

/-- C3: for an observed annual sum of −150 and a potential annual sum of
−115 the code takes the sentinel branch and yields −9999, not the
30.43…% = (−115 − (−150))/|−115|·100 = 700/23 claimed by the spec: the
reduced-emission guard tests `pot < obs`, which −115 < −150 fails.  The
annual PENALTY itself (sum of per-timestep potential − observed) does
equal 35 for such a year. -/
theorem c3_penalty_perc_sentinel :
    penaltyPercYear (-150) (-115) = -9999 ∧
    penaltyPercYear (-150) (-115) ≠ 700 / 23 ∧
    (penaltyColumn [-100, -15] [-100, -50]).sum = 35 := by
  refine ⟨by norm_num [penaltyPercYear], by norm_num [penaltyPercYear], ?_⟩
  norm_num [penaltyColumn]

/-- C8: on a freshly constructed NEPpenalty instance the properties
penalty_hires_df, penalty_min_year, gapfilled_df and gf_results all raise
the validation error 'No gap-filled data found', but penalty_per_year_df
raises AttributeError instead: `__init__` never initializes
`_penalty_per_year_df`, so the isinstance check in the property body is
never reached. -/
theorem c8_uninitialized_property_errors :
    penaltyHiresDf nepPenaltyInitAttrs
      = Except.error (PyErr.exceptionMsg "No gap-filled data found") ∧
    penaltyMinYear nepPenaltyInitAttrs
      = Except.error (PyErr.exceptionMsg "No gap-filled data found") ∧
    gapfilledDf nepPenaltyInitAttrs
      = Except.error (PyErr.exceptionMsg "No gap-filled data found") ∧
    gfResults nepPenaltyInitAttrs
      = Except.error (PyErr.exceptionMsg "No gap-filled data found") ∧
    penaltyPerYearDf nepPenaltyInitAttrs
      = Except.error (PyErr.attributeError "_penalty_per_year_df") := by
  refine ⟨rfl, rfl, rfl, rfl, rfl⟩

/-- C2, counterexample: with the two bounds equal (thres_ncrd_lower =
thres_crd = 1, allowed by the claim's hypothesis lower ≤ critical), a June
day whose daily VPD maximum equals the lower near-critical bound is not
classified near-critical: `ncrds_ix` additionally requires the aggregate to
be strictly below thres_crd, so FLAG_nCRD stays 0. -/
theorem c2_ncrd_boundary_counterexample :
    (1 : ℚ) ≤ 1 ∧
    dailyMax [(⟨(2020, 0), 6, some 1⟩ : PRec)] (2020, 0) = some 1 ∧
    inPenaltyWindow 5 9 (⟨(2020, 0), 6, some 1⟩ : PRec) = true ∧
    flagNCRD [(⟨(2020, 0), 6, some 1⟩ : PRec)] 1 1 5 9
      (⟨(2020, 0), 6, some 1⟩ : PRec) = 0 := by
  decide

/-- C2, amended: under the strictly ascending thresholds
thres_ncrd_lower < thres_crd, a record inside the month window whose day
has daily VPD maximum exactly at the lower near-critical bound gets
FLAG_nCRD = 1, a record whose day is exactly at the critical bound gets
FLAG_CRD = 1 (both boundaries inclusive), and no record ever carries both
FLAG_CRD = 1 and FLAG_nCRD = 1. -/
theorem c2_crd_classification (df : List PRec) (lower crd : ℚ) (sm em : Int)
    (r : PRec) (hlt : lower < crd) (hw : inPenaltyWindow sm em r = true) :
    (dailyMax df r.day = some lower → flagNCRD df lower crd sm em r = 1) ∧
    (dailyMax df r.day = some crd → flagCRD df crd sm em r = 1) ∧
    ∀ r2 : PRec,
      ¬ (flagCRD df crd sm em r2 = 1 ∧ flagNCRD df lower crd sm em r2 = 1) := by
  refine ⟨?_, ?_, ?_⟩
  · intro h
    simp [flagNCRD, ncrdMask, h, optGe, optLt, hw, hlt]
  · intro h
    simp [flagCRD, crdMask, h, optGe, hw]
  · intro r2 h12
    obtain ⟨h1, h2⟩ := h12
    rw [flagCRD] at h1
    rw [flagNCRD] at h2
    by_cases hc : crdMask df crd sm em r2 = true
    · by_cases hn : ncrdMask df lower crd sm em r2 = true
      · rw [crdMask, Bool.and_eq_true] at hc
        rw [ncrdMask, Bool.and_eq_true, Bool.and_eq_true] at hn
        cases hda : dailyMax df r2.day with
        | none => rw [hda] at hc; simp [optGe] at hc
        | some v =>
          rw [hda] at hc hn
          have hge : crd ≤ v := by
            have := hc.1; simpa [optGe] using this
          have hlt2 : v < crd := by
            have := hn.1.2; simpa [optLt] using this
          exact absurd (lt_of_le_of_lt hge hlt2) (lt_irrefl crd)
      · simp [hn] at h2
    · simp [hc] at h1

/-- C2, witness: the amended statement evaluated at the example frame with
lower = 1 < 2 = critical, at the record of the day whose maximum is 1. -/
theorem c2_crd_classification_witness :
    (1 : ℚ) < 2 ∧
    ((dailyMax exDf exRecA.day = some 1 → flagNCRD exDf 1 2 5 9 exRecA = 1) ∧
     (dailyMax exDf exRecA.day = some 2 → flagCRD exDf 2 5 9 exRecA = 1) ∧
     ∀ r2 : PRec,
       ¬ (flagCRD exDf 2 5 9 r2 = 1 ∧ flagNCRD exDf 1 2 5 9 r2 = 1)) :=
  ⟨by decide, c2_crd_classification exDf 1 2 5 9 exRecA (by decide) (by decide)⟩

/-- C7, counterexample: for a year with no day above the critical
threshold, the num_CRDs entry of the per-year table is a missing value,
not the count 0: the groupby-count series only contains years with at
least one qualifying day, and column assignment aligns on the year index. -/
theorem c7_num_crds_nan_counterexample :
    ¬ (numCRDsEntry [(⟨(2020, 0), 6, some 1⟩ : PRec)] 2 2020
        = some (countYearCRDs [(⟨(2020, 0), 6, some 1⟩ : PRec)] 2 2020)) := by
  decide

/-- C7, amended: the num_CRDs entry for a year equals the number of days
of that year whose daily VPD maximum strictly exceeds the critical
threshold, counted over all months with no month-window restriction,
whenever that number is positive; a year with zero such days receives a
missing value instead of 0.  Months are irrelevant to the entry: any
remapping of the record months leaves it unchanged. -/
theorem c7_num_crds_entry (df : List PRec) (thres : ℚ) (y : Int) :
    numCRDsEntry df thres y =
      (if countYearCRDs df thres y = 0 then none
       else some (countYearCRDs df thres y)) ∧
    ∀ f : Int → Int,
      numCRDsEntry (df.map (setMonth f)) thres y = numCRDsEntry df thres y := by
  constructor
  · rw [numCRDsEntry, countYearCRDs, crdDaysAboveThres, List.filter_filter]
  · intro f
    have hdm : ∀ d, dailyMax (df.map (setMonth f)) d = dailyMax df d := by
      intro d
      rw [dailyMax, dailyMax, List.filterMap_map]
      rfl
    have hdd : distinctDays (df.map (setMonth f)) = distinctDays df := by
      rw [distinctDays, distinctDays, List.map_map]
      rfl
    rw [numCRDsEntry, numCRDsEntry, crdDaysAboveThres, crdDaysAboveThres, hdd]
    simp only [hdm]

/-- C6: on a series whose timestamps are all daytime, the nighttime
partition of the daytime/nighttime LOF test is empty, the daytime `lof`
call succeeds, and the whole test raises: the empty partition reaches
scikit-learn's fit on a zero-sample array, whose input validation raises
ValueError, and neither `lof` nor `_flagtests` guards against or handles
it — contradicting the spec's edge-case policy that an empty partition
contributes no rejections rather than an error. -/
theorem c6_empty_nighttime_partition_error :
    (([(0, some 1), (1, some 2)] : SeriesQ).filter
        (fun r => (fun (_ : Int) => false) r.1) = []) ∧
    lofDiive noOutlierDet
        (([(0, some 1), (1, some 2)] : SeriesQ).filter
          (fun r => (fun (_ : Int) => true) r.1)) 20 (1/100) "DAYTIME" 1
      = Except.ok
          { index := [0, 1]
            cols := [("SERIES_DAYTIME", [some 1, some 2]),
                     ("OUTLIER_DAYTIME", [none, none]),
                     ("NOT_OUTLIER_DAYTIME", [some 1, some 2])] } ∧
    lofDtntFlagtests noOutlierDet [(0, some 1), (1, some 2)]
        (fun _ => true) (fun _ => false) 20 (1/100) 1
      = Except.error
          "ValueError: Found array with 0 sample(s) while a minimum of 1 is required" := by
  refine ⟨rfl, rfl, rfl⟩

/-- C10: the `lof` function of src/diive invoked with n_jobs = -1 computes
the same results dataframe (same index, same columns, same values) as the
`lof` function of the 'src/diive - Copy' tree, for every detector
behaviour, series, n_neighbors, contamination and suffix: the two
implementations differ only in how the parallel-jobs setting reaches
scikit-learn, which does not affect the fitted labels. -/
theorem c10_lof_equiv (det : LofDetector) (series : SeriesQ)
    (nNeighbors : ℕ) (contamination : ℚ) (suffix : String) :
    lofDiive det series nNeighbors contamination suffix (-1)
      = lofCopy det series nNeighbors contamination suffix := rfl

/-- Updating the slot that holds `g` makes a later dereference return the
new frame (shared-reference semantics of the store). -/
theorem getFrame_setFrame (st : Store) (i : ℕ) (f g : StFrame)
    (h : getFrame st i = some g) : getFrame (setFrame st i f) i = some f := by
  induction st with
  | nil => simp [getFrame] at h
  | cons hd tl ih =>
    obtain ⟨k, v⟩ := hd
    by_cases hk : k = i
    · subst hk
      have hhd : (if ((k, v) : ℕ × StFrame).1 = k then (k, f) else (k, v)) = (k, f) :=
        if_pos rfl
      rw [getFrame, setFrame, List.map_cons, hhd, List.lookup]
      simp
    · have hki : (i == k) = false := by
        simp [Ne.symm hk]
      rw [getFrame, List.lookup] at h
      rw [hki] at h
      have htl := ih h
      have hhd : (if ((k, v) : ℕ × StFrame).1 = i then (i, f) else (k, v)) = (k, v) :=
        if_neg hk
      rw [getFrame, setFrame, List.map_cons, hhd, List.lookup, hki]
      exact htl

/-- C9, counterexample: constructing StepwiseMeteoScreeningDb on a store
holding a single caller frame mutates that frame: the shallow dict copy
shares it, and _make_timeres_groups appends the FREQ_AUTO_SEC column to it
in place, so the caller's dataframe has gained a column. -/
theorem c9_mscr_mutates_caller_frame :
    getFrame (mscrInitStore [(0, ⟨[0, 60], [("TA", [5, 6])]⟩)] [("TA", 0)] ["TA"]) 0
      = some ⟨[0, 60], [("TA", [5, 6]), ("FREQ_AUTO_SEC", [60, 60])]⟩ ∧
    ¬ (getFrame (mscrInitStore [(0, ⟨[0, 60], [("TA", [5, 6])]⟩)] [("TA", 0)] ["TA"]) 0
        = some ⟨[0, 60], [("TA", [5, 6])]⟩) := by
  decide

/-- C9, amended: NEPpenalty's construction and processing never mutate the
caller's dataframe — `df.copy()` allocates a fresh frame, so the caller's
frame dereferences unchanged afterwards.  StepwiseMeteoScreeningDb's field
setup, by contrast, does mutate the caller's input frame, but only by
appending the detected-frequency column FREQ_AUTO_SEC: the index and all
pre-existing columns (names and values) are preserved. -/
theorem c9_caller_frame_effects (st : Store) (freshId dfId : ℕ) (col : String)
    (f : StFrame) (hdf : getFrame st dfId = some f) (hfresh : freshId ≠ dfId)
    (fid : ℕ) (g : StFrame) (hg : getFrame st fid = some g) :
    getFrame (nepInitStore st freshId dfId col) dfId = some f ∧
    getFrame (makeTimeresGroups st fid) fid
      = some { index := g.index
               cols := g.cols ++ [("FREQ_AUTO_SEC", detectFreqGroups g.index)] } := by
  constructor
  · rw [nepInitStore, hdf, getFrame, List.lookup]
    have hbeq : (dfId == freshId) = false := by
      simp [Ne.symm hfresh]
    rw [hbeq]
    exact hdf
  · rw [makeTimeresGroups, hg]
    exact getFrame_setFrame st fid _ g hg

/-- C9, witness: the amended statement evaluated on a concrete store with a
caller frame for NEPpenalty under identity 0 and a caller frame for the
meteoscreening under identity 1. -/
theorem c9_caller_frame_effects_witness :
    (getFrame [(0, (⟨[0], [("NEP", [1])]⟩ : StFrame)),
               (1, (⟨[0, 60], [("TA", [5, 6])]⟩ : StFrame))] 0
      = some ⟨[0], [("NEP", [1])]⟩) ∧
    (2 ≠ 0) ∧
    (getFrame (nepInitStore
        [(0, (⟨[0], [("NEP", [1])]⟩ : StFrame)),
         (1, (⟨[0, 60], [("TA", [5, 6])]⟩ : StFrame))] 2 0 "NEP") 0
      = some ⟨[0], [("NEP", [1])]⟩ ∧
     getFrame (makeTimeresGroups
        [(0, (⟨[0], [("NEP", [1])]⟩ : StFrame)),
         (1, (⟨[0, 60], [("TA", [5, 6])]⟩ : StFrame))] 1) 1
      = some { index := ([0, 60] : List Int)
               cols := [("TA", [5, 6])] ++
                 [("FREQ_AUTO_SEC", detectFreqGroups [0, 60])] }) :=
  ⟨by decide, by decide,
   c9_caller_frame_effects
     [(0, (⟨[0], [("NEP", [1])]⟩ : StFrame)),
      (1, (⟨[0, 60], [("TA", [5, 6])]⟩ : StFrame))] 2 0 "NEP"
     ⟨[0], [("NEP", [1])]⟩ (by decide) (by decide) 1
     ⟨[0, 60], [("TA", [5, 6])]⟩ (by decide)⟩

theorem lookup_toSeries (g : List (Int × ℚ)) (s : Int) :
    (toSeries g).lookup s = (g.lookup s).map some := by
  induction g with
  | nil => rfl
  | cons hd tl ih =>
    obtain ⟨c, w⟩ := hd
    rw [toSeries, List.map_cons]
    rw [List.lookup, List.lookup]
    cases hsc : (s == c) with
    | true => rfl
    | false => exact ih

theorem lookup_mem {β : Type} {g : List (Int × β)} {s : Int} {v : β}
    (h : g.lookup s = some v) : (s, v) ∈ g := by
  induction g with
  | nil => simp [List.lookup] at h
  | cons hd tl ih =>
    obtain ⟨c, w⟩ := hd
    rw [List.lookup] at h
    cases hsc : (s == c) with
    | true =>
      rw [hsc] at h
      have hs : s = c := by
        exact beq_iff_eq.mp hsc
      have hv : w = v := by
        simpa using h
      subst hs
      subst hv
      exact List.mem_cons_self _ _
    | false =>
      rw [hsc] at h
      exact List.mem_cons_of_mem _ (ih h)

theorem lookup_some_of_mem {g : List (Int × ℚ)} {s : Int} {v : ℚ}
    (h : (s, v) ∈ g) : ∃ w, g.lookup s = some w := by
  induction g with
  | nil => simp at h
  | cons hd tl ih =>
    obtain ⟨c, w⟩ := hd
    rcases List.mem_cons.mp h with h1 | h2
    · refine ⟨w, ?_⟩
      rw [List.lookup]
      have : (s == c) = true := by
        rw [beq_iff_eq]
        exact congrArg Prod.fst h1
      rw [this]
    · obtain ⟨w2, hw2⟩ := ih h2
      by_cases hsc : s = c
      · refine ⟨w, ?_⟩
        rw [List.lookup]
        have : (s == c) = true := beq_iff_eq.mpr hsc
        rw [this]
      · refine ⟨w2, ?_⟩
        rw [List.lookup]
        have : (s == c) = false := by
          simp [hsc]
        rw [this]
        exact hw2

theorem find?_congr_mem {α : Type} (l : List α) (p q : α → Bool)
    (h : ∀ x ∈ l, p x = q x) : l.find? p = l.find? q := by
  induction l with
  | nil => rfl
  | cons a tl ih =>
    rw [List.find?, List.find?, h a (List.mem_cons_self a tl)]
    cases q a with
    | true => rfl
    | false => exact ih (fun x hx => h x (List.mem_cons_of_mem a hx))

theorem find?_of_lookup {g : List (Int × ℚ)}
    (hs : List.Pairwise (fun a b => a.1 < b.1) g) {s : Int} {v : ℚ}
    (hl : g.lookup s = some v) :
    g.find? (fun r => decide (s ≤ r.1)) = some (s, v) := by
  induction g with
  | nil => simp [List.lookup] at hl
  | cons hd tl ih =>
    obtain ⟨c, w⟩ := hd
    rw [List.lookup] at hl
    rw [List.find?]
    cases hsc : (s == c) with
    | true =>
      rw [hsc] at hl
      have hs2 : s = c := beq_iff_eq.mp hsc
      have hv : w = v := by simpa using hl
      subst hs2
      subst hv
      simp
    | false =>
      rw [hsc] at hl
      have hne : s ≠ c := by
        intro hcon
        rw [hcon] at hsc
        simp at hsc
      have hmem : (s, v) ∈ tl := lookup_mem hl
      have hcs : c < s := (List.pairwise_cons.mp hs).1 (s, v) hmem
      have hcond : (decide (s ≤ c)) = false := by
        simp
        exact hcs
      rw [hcond]
      exact ih (List.pairwise_cons.mp hs).2 hl

theorem pairwise_last_max (g0 : Int × ℚ) (gs : List (Int × ℚ))
    (hs : List.Pairwise (fun a b => a.1 < b.1) (g0 :: gs)) :
    ∀ r ∈ g0 :: gs, r.1 ≤ (gs.getLastD g0).1 := by
  induction gs generalizing g0 with
  | nil =>
    intro r hr
    rcases List.mem_cons.mp hr with h | h
    · rw [h]; rfl
    · simp at h
  | cons g1 gs2 ih =>
    intro r hr
    rw [List.getLastD_cons]
    have hs2 : List.Pairwise (fun a b => a.1 < b.1) (g1 :: gs2) :=
      (List.pairwise_cons.mp hs).2
    rcases List.mem_cons.mp hr with h | h
    · have h01 : g0.1 < g1.1 :=
        (List.pairwise_cons.mp hs).1 g1 (List.mem_cons_self g1 gs2)
      have hle := ih g1 hs2 g1 (List.mem_cons_self g1 gs2)
      rw [h]
      exact le_trans (le_of_lt h01) hle
    · exact ih g1 hs2 r h

theorem gridFrom_mem_le (t : ℕ) : ∀ (n : ℕ) (s0 : Int), ∀ x ∈ gridFrom s0 t n, s0 ≤ x := by
  intro n
  induction n with
  | zero => intro s0 x hx; simp [gridFrom] at hx
  | succ n ih =>
    intro s0 x hx
    rw [gridFrom] at hx
    rcases List.mem_cons.mp hx with h | h
    · rw [h]
    · have := ih (s0 + t) x h
      omega


theorem gridHyp_step (t : ℕ) (ht : 0 < t) (g : List (Int × ℚ)) (n : ℕ) (s0 : Int)
    (hgrid : ∀ r ∈ g, s0 ≤ r.1 → ∃ m : ℕ, m < n + 1 ∧ r.1 = s0 + ((m * t : ℕ) : Int)) :
    ∀ r ∈ g, s0 + t ≤ r.1 → ∃ m : ℕ, m < n ∧ r.1 = (s0 + t) + ((m * t : ℕ) : Int) := by
  intro r hr hge
  obtain ⟨m, hm, hEq⟩ := hgrid r hr (by omega)
  cases m with
  | zero => simp at hEq; omega
  | succ m2 =>
    refine ⟨m2, by omega, ?_⟩
    have hmul : ((m2 + 1) * t : ℕ) = t + (m2 * t : ℕ) := by ring
    rw [hmul, Nat.cast_add] at hEq
    generalize hq : (m2 * t : ℕ) = q at hEq ⊢
    omega

theorem find?_shift (t : ℕ) (ht : 0 < t) (g : List (Int × ℚ)) (s0 : Int)
    (hl : g.lookup s0 = none)
    (halign : ∀ r ∈ g, s0 ≤ r.1 → ∃ m : ℕ, r.1 = s0 + ((m * t : ℕ) : Int)) :
    g.find? (fun r => decide (s0 ≤ r.1)) = g.find? (fun r => decide (s0 + t ≤ r.1)) := by
  apply find?_congr_mem
  intro r hr
  by_cases hge : s0 + t ≤ r.1
  · have h0 : s0 ≤ r.1 := by omega
    simp [h0, hge]
  · by_cases hge0 : s0 ≤ r.1
    · obtain ⟨m, hEq⟩ := halign r hr hge0
      cases m with
      | zero =>
        exfalso
        simp at hEq
        have hmem : (s0, r.2) ∈ g := by
          have hr2 : r = (s0, r.2) := by
            apply Prod.ext
            · exact hEq
            · rfl
          rw [← hr2]
          exact hr
        obtain ⟨w, hw⟩ := lookup_some_of_mem hmem
        rw [hl] at hw
        exact Option.noConfusion hw
      | succ m2 =>
        exfalso
        have hmul : ((m2 + 1) * t : ℕ) = t + (m2 * t : ℕ) := by ring
        rw [hmul, Nat.cast_add] at hEq
        generalize hq : (m2 * t : ℕ) = q at hEq
        omega
    · simp [hge, hge0]

theorem nextValid_reindex_grid (t : ℕ) (ht : 0 < t) (g : List (Int × ℚ))
    (hs : List.Pairwise (fun a b => a.1 < b.1) g) :
    ∀ (n : ℕ) (s0 : Int),
      (∀ r ∈ g, s0 ≤ r.1 → ∃ m : ℕ, m < n ∧ r.1 = s0 + ((m * t : ℕ) : Int)) →
      nextValid (reindexVals (toSeries g) (gridFrom s0 t n)) =
        (g.find? (fun r => decide (s0 ≤ r.1))).map
          (fun r => ((r.1 - s0).toNat / t, r.2)) := by
  intro n
  induction n with
  | zero =>
    intro s0 hgrid
    simp only [gridFrom, reindexVals, List.map_nil]
    cases hf : g.find? (fun r => decide (s0 ≤ r.1)) with
    | none => rfl
    | some r =>
      have hr1 : s0 ≤ r.1 := by simpa using List.find?_some hf
      have hrm : r ∈ g := List.mem_of_find?_eq_some hf
      obtain ⟨m, hm, _⟩ := hgrid r hrm hr1
      omega
  | succ n ih =>
    intro s0 hgrid
    have hstep := gridHyp_step t ht g n s0 hgrid
    simp only [gridFrom, reindexVals, List.map_cons, lookup_toSeries]
    cases hl : g.lookup s0 with
    | some v =>
    rw [find?_of_lookup hs hl]
    simp only [Option.map_some', Option.join, Option.some_bind, id]
    rw [nextValid]
    simp [ht]
    | none =>
    simp only [Option.map_none', Option.join, Option.none_bind]
    rw [nextValid]
    have ihres := ih (s0 + t) hstep
    rw [reindexVals] at ihres
    simp only [lookup_toSeries, Option.join] at ihres
    rw [ihres]
    have hcong := find?_shift t ht g s0 hl
      (fun r hr hge => (hgrid r hr hge).elim (fun m hm => ⟨m, hm.2⟩))
    rw [hcong]
    cases hf : g.find? (fun r => decide (s0 + t ≤ r.1)) with
    | none => rfl
    | some r =>
      have hge : s0 + t ≤ r.1 := by simpa using List.find?_some hf
      have harith : (r.1 - s0).toNat = (r.1 - (s0 + t)).toNat + t := by omega
      simp only [Option.map_some']
      rw [harith, Nat.add_div_right _ ht]

theorem bfill_reindex_grid (L t : ℕ) (ht : 0 < t) (g : List (Int × ℚ))
    (hs : List.Pairwise (fun a b => a.1 < b.1) g) :
    ∀ (n : ℕ) (s0 : Int),
    (∀ r ∈ g, s0 ≤ r.1 → ∃ m : ℕ, m < n ∧ r.1 = s0 + ((m * t : ℕ) : Int)) →
    bfillLimit L (reindexVals (toSeries g) (gridFrom s0 t n)) =
      (gridFrom s0 t n).map (fun s => backProp g L t s) := by
  intro n
  induction n with
  | zero =>
    intro s0 _
    rfl
  | succ n ih =>
    intro s0 hgrid
    have hstep := gridHyp_step t ht g n s0 hgrid
    simp only [gridFrom, reindexVals, List.map_cons, lookup_toSeries]
    rw [bfillLimit]
    have htail := ih (s0 + t) hstep
    rw [reindexVals] at htail
    simp only [lookup_toSeries] at htail
    congr 1
    cases hl : g.lookup s0 with
    | some v =>
      simp only [Option.map_some', Option.join, Option.some_bind, id]
      rw [bfillHead, backProp, find?_of_lookup hs hl, Option.some_bind]
      have hnn : (0 : Int) ≤ ((L * t : ℕ) : Int) := Int.natCast_nonneg _
      rw [if_pos (by omega)]
    | none =>
      simp only [Option.map_none', Option.join, Option.none_bind]
      rw [bfillHead]
      have hnv := nextValid_reindex_grid t ht g hs n (s0 + t) hstep
      rw [reindexVals] at hnv
      simp only [lookup_toSeries, Option.join] at hnv
      rw [hnv]
      have hcong := find?_shift t ht g s0 hl
        (fun r hr hge => (hgrid r hr hge).elim (fun m hm => ⟨m, hm.2⟩))
      rw [backProp, hcong]
      cases hf : g.find? (fun r => decide (s0 + t ≤ r.1)) with
      | none => rfl
      | some r =>
        have hge : s0 + t ≤ r.1 := by simpa using List.find?_some hf
        have hrm : r ∈ g := List.mem_of_find?_eq_some hf
        obtain ⟨m, hm, hEq⟩ := hgrid r hrm (by omega)
        cases m with
        | zero =>
          exfalso
          simp at hEq
          omega
        | succ m2 =>
          have hsplit : ((m2 + 1) * t : ℕ) = t + (m2 * t : ℕ) := by ring
          rw [hsplit, Nat.cast_add] at hEq
          have htn : (r.1 - (s0 + (t : Int))).toNat = m2 * t := by
            generalize hq : (m2 * t : ℕ) = q at hEq ⊢
            omega
          simp only [Option.map_some', Option.some_bind]
          rw [htn, Nat.mul_div_cancel m2 ht]
          have hcond : (r.1 ≤ s0 + ((L * t : ℕ) : Int)) ↔ (m2 + 1 ≤ L) := by
            rw [hEq, add_le_add_iff_left, ← Nat.cast_add, Nat.cast_le, ← hsplit]
            exact mul_le_mul_right ht
          exact if_congr hcond.symm rfl rfl

theorem getLastD_toSeries_fst (g0 : Int × ℚ) (gs : List (Int × ℚ)) :
    ((toSeries gs).getLastD (g0.1, some g0.2)).1 = (gs.getLastD g0).1 := by
  rw [toSeries, List.getLastD_eq_getLast?, List.getLast?_map,
    List.getLastD_eq_getLast?]
  cases gs.getLast? with
  | none => rfl
  | some x => rfl

theorem zip_map_snd_eq {α β : Type} (l : List α) (f : α → β) :
    ∀ p ∈ l.zip (l.map f), p.2 = f p.1 := by
  induction l with
  | nil => intro p hp; simp at hp
  | cons a tl ih =>
    intro p hp
    rw [List.map_cons, List.zip_cons_cons] at hp
    rcases List.mem_cons.mp hp with h | h
    · rw [h]
    · exact ih p h

/-- C4: for every coarse-frequency group (records strictly increasing and
aligned on the target grid, coarse interval k·t) the harmonized output has
exactly the hires timestamps except the synthetic one created one coarse
interval before the group's first record (which is always removed), the
synthetic timestamp never appears, and every slot's value is the backward
propagation of the next coarse record with a fill-limit of exactly
(coarse interval / target interval) − 1 = k − 1 slots. -/
theorem c4_harmonize_group (t k : ℕ) (ht : 0 < t)
    (g0 : Int × ℚ) (gs : List (Int × ℚ))
    (hs : List.Pairwise (fun a b => a.1 < b.1) (g0 :: gs))
    (halign : ∀ r ∈ g0 :: gs, ∃ m : ℕ, r.1 = g0.1 + ((m * t : ℕ) : Int)) :
    (harmonizeGroup t (k * t) (toSeries (g0 :: gs))).map Prod.fst
        = (dateRange (g0.1 - ((k * t : ℕ) : Int)) (gs.getLastD g0).1 t).drop 1 ∧
      (g0.1 - ((k * t : ℕ) : Int)) ∉
        (harmonizeGroup t (k * t) (toSeries (g0 :: gs))).map Prod.fst ∧
      ∀ p ∈ harmonizeGroup t (k * t) (toSeries (g0 :: gs)),
        p.2 = backProp (g0 :: gs) (k - 1) t p.1 := by
  obtain ⟨M, hM⟩ := halign (gs.getLastD g0) (List.getLastD_mem_cons gs g0)
  have htoNat : ((gs.getLastD g0).1 - (g0.1 - ((k * t : ℕ) : Int))).toNat
      = M * t + k * t := by
    rw [hM]
    generalize (M * t : ℕ) = a
    generalize (k * t : ℕ) = b
    omega
  have hdiv : (M * t + k * t) / t + 1 = M + k + 1 := by
    have hmul : M * t + k * t = (M + k) * t := by ring
    rw [hmul, Nat.mul_div_cancel _ ht]
  have hgrid : ∀ r ∈ g0 :: gs, (g0.1 - ((k * t : ℕ) : Int)) ≤ r.1 →
      ∃ m : ℕ, m < M + k + 1 ∧
        r.1 = (g0.1 - ((k * t : ℕ) : Int)) + ((m * t : ℕ) : Int) := by
    intro r hr _
    obtain ⟨m2, hm2⟩ := halign r hr
    refine ⟨k + m2, ?_, ?_⟩
    · have hle : r.1 ≤ (gs.getLastD g0).1 := pairwise_last_max g0 gs hs r hr
      rw [hm2, hM, add_le_add_iff_left, Nat.cast_le] at hle
      have := (mul_le_mul_right ht).mp hle
      omega
    · rw [hm2]
      have hmul : ((k + m2) * t : ℕ) = (k * t : ℕ) + (m2 * t : ℕ) := by ring
      rw [hmul, Nat.cast_add]
      ring
  have key : harmonizeGroup t (k * t) (toSeries (g0 :: gs)) =
      ((gridFrom (g0.1 - ((k * t : ℕ) : Int)) t (M + k + 1)).zip
        ((gridFrom (g0.1 - ((k * t : ℕ) : Int)) t (M + k + 1)).map
          (fun s => backProp (g0 :: gs) (k - 1) t s))).drop 1 := by
    conv_lhs =>
      rw [show toSeries (g0 :: gs) = (g0.1, some g0.2) :: toSeries gs from rfl]
      rw [harmonizeGroup]
    rw [getLastD_toSeries_fst]
    rw [show ((g0.1, some g0.2) : Int × Option ℚ).1 = g0.1 from rfl]
    rw [show ((g0.1, some g0.2) :: toSeries gs : SeriesQ) = toSeries (g0 :: gs) from rfl]
    rw [dateRange, htoNat, hdiv, Nat.mul_div_cancel k ht]
    rw [bfill_reindex_grid (k - 1) t ht (g0 :: gs) hs (M + k + 1) _ hgrid]
  have hdr : dateRange (g0.1 - ((k * t : ℕ) : Int)) (gs.getLastD g0).1 t
      = gridFrom (g0.1 - ((k * t : ℕ) : Int)) t (M + k + 1) := by
    rw [dateRange, htoNat, hdiv]
  have hlen : (gridFrom (g0.1 - ((k * t : ℕ) : Int)) t (M + k + 1)).length ≤
      ((gridFrom (g0.1 - ((k * t : ℕ) : Int)) t (M + k + 1)).map
        (fun s => backProp (g0 :: gs) (k - 1) t s)).length := by
    rw [List.length_map]
  refine ⟨?_, ?_, ?_⟩
  · rw [key, hdr, List.map_drop, List.map_fst_zip _ _ hlen]
  · rw [key, List.map_drop, List.map_fst_zip _ _ hlen]
    simp only [gridFrom, List.drop_succ_cons, List.drop_zero]
    intro hmem
    have := gridFrom_mem_le t (M + k) (g0.1 - ((k * t : ℕ) : Int) + t) _ hmem
    omega
  · intro p hp
    rw [key] at hp
    exact zip_map_snd_eq _ _ p (List.mem_of_mem_drop hp)

theorem nextValid_mem {xs : List (Option ℚ)} {d : ℕ} {v : ℚ}
    (h : nextValid xs = some (d, v)) : some v ∈ xs := by
  induction xs generalizing d with
  | nil => simp [nextValid] at h
  | cons x rest ih =>
    cases x with
    | some w =>
      rw [nextValid] at h
      have hv : w = v := by
        simpa using congrArg (fun o => Option.map Prod.snd o) h
      rw [hv]
      exact List.mem_cons_self _ _
    | none =>
      rw [nextValid] at h
      cases hnv : nextValid rest with
      | none => rw [hnv] at h; simp at h
      | some p =>
        rw [hnv] at h
        simp only [Option.map_some'] at h
        obtain ⟨p1, p2⟩ := p
        have hv : p2 = v := by
          simpa using congrArg (fun o => Option.map Prod.snd o) h
        rw [hv] at hnv
        exact List.mem_cons_of_mem _ (ih hnv)

theorem mem_of_bfill {L : ℕ} {v : ℚ} :
    ∀ {xs : List (Option ℚ)}, some v ∈ bfillLimit L xs → some v ∈ xs := by
  intro xs
  induction xs with
  | nil => intro h; simp [bfillLimit] at h
  | cons x rest ih =>
    intro h
    rw [bfillLimit] at h
    rcases List.mem_cons.mp h with h1 | h1
    · cases x with
      | some w =>
        rw [bfillHead] at h1
        rw [h1]
        exact List.mem_cons_self _ _
      | none =>
        rw [bfillHead] at h1
        cases hnv : nextValid rest with
        | none => rw [hnv] at h1; simp at h1
        | some p =>
          obtain ⟨p1, p2⟩ := p
          rw [hnv] at h1
          simp only [Option.some_bind] at h1
          by_cases hc : p1 + 1 ≤ L
          · rw [if_pos hc] at h1
            have hv : p2 = v := by simpa using h1.symm
            rw [hv] at hnv
            exact List.mem_cons_of_mem _ (nextValid_mem hnv)
          · rw [if_neg hc] at h1
            simp at h1
    · exact List.mem_cons_of_mem _ (ih h1)

theorem mem_of_reindex {grp : SeriesQ} {ixs : List Int} {v : ℚ}
    (h : some v ∈ reindexVals grp ixs) : ∃ ts, (ts, some v) ∈ grp := by
  rw [reindexVals] at h
  obtain ⟨ts, _, hts⟩ := List.mem_map.mp h
  refine ⟨ts, ?_⟩
  cases hl : grp.lookup ts with
  | none => rw [hl] at hts; simp at hts
  | some o =>
    rw [hl] at hts
    cases o with
    | none => simp at hts
    | some w =>
      have hw : w = v := by simpa using hts
      rw [← hw]
      exact lookup_mem hl

theorem harmonizeGroup_mem {t f : ℕ} {grp : SeriesQ} {s : Int} {v : ℚ}
    (h : (s, some v) ∈ harmonizeGroup t f grp) : ∃ ts, (ts, some v) ∈ grp := by
  cases grp with
  | nil => simp [harmonizeGroup] at h
  | cons g0 gs =>
    rw [harmonizeGroup] at h
    have h2 := List.mem_of_mem_drop h
    have h3 := (List.of_mem_zip h2).2
    exact mem_of_reindex (mem_of_bfill h3)

/-- C5: a detected frequency whose record share is below the minimum
percentage (0.01 % of total records) is excluded from the used
frequencies, no record of such a frequency survives `_filter_data`, and
every value appearing in the harmonized output of any frequency group of
the filtered data originates from a record whose frequency is in the used
set — so no rejected-frequency record contributes to the harmonized
output. -/
theorem c5_freq_rejection (groupCounts : List (ℕ × ℕ))
    (records : List FreqRecord) (t : ℕ)
    (hnodup : (groupCounts.map Prod.fst).Nodup) :
    (∀ p ∈ groupCounts, freqPerc groupCounts p.2 < 1 / 100 →
      p.1 ∉ usedFreqs groupCounts ∧
      ∀ r ∈ filterData records (usedFreqs groupCounts), r.1 ≠ p.1) ∧
    ∀ f0 s v, (s, some v) ∈ harmonizeGroup t f0
        (rowsOfFreq (filterData records (usedFreqs groupCounts)) f0) →
      f0 ∈ usedFreqs groupCounts ∧ ∃ ts, (f0, ts, some v) ∈ records := by
  have hmemUsed : ∀ f0, f0 ∈ usedFreqs groupCounts →
      ∃ q ∈ groupCounts, q.1 = f0 ∧ 1 / 100 < freqPerc groupCounts q.2 := by
    intro f0 hf0
    rw [usedFreqs] at hf0
    obtain ⟨q, hq, hq1⟩ := List.mem_map.mp hf0
    have hq2 := List.mem_of_mem_filter hq
    have hq3 := List.of_mem_filter hq
    refine ⟨q, hq2, hq1, ?_⟩
    simpa using hq3
  have hfilterUsed : ∀ r ∈ filterData records (usedFreqs groupCounts),
      r.1 ∈ usedFreqs groupCounts := by
    intro r hr
    have := List.of_mem_filter hr
    simpa using this
  constructor
  · intro p hp hperc
    have hnot : p.1 ∉ usedFreqs groupCounts := by
      intro hin
      obtain ⟨q, hq, hq1, hq2⟩ := hmemUsed p.1 hin
      have hqp : q = p := List.inj_on_of_nodup_map hnodup hq hp hq1
      rw [hqp] at hq2
      exact absurd hperc (not_lt.mpr (le_of_lt hq2))
    refine ⟨hnot, ?_⟩
    intro r hr hrp
    exact hnot (hrp ▸ hfilterUsed r hr)
  · intro f0 s v hmem
    obtain ⟨ts, hts⟩ := harmonizeGroup_mem hmem
    rw [rowsOfFreq] at hts
    obtain ⟨r, hr, hr2⟩ := List.mem_map.mp hts
    have hrf : r.1 = f0 := by
      have := List.of_mem_filter hr
      simpa using this
    have hrfil : r ∈ filterData records (usedFreqs groupCounts) :=
      List.mem_of_mem_filter hr
    constructor
    · rw [← hrf]
      exact hfilterUsed r hrfil
    · refine ⟨ts, ?_⟩
      have hrrec : r ∈ records := List.mem_of_mem_filter hrfil
      have : r = (f0, ts, some v) := by
        obtain ⟨ra, rb⟩ := r
        simp only at hrf hr2
        rw [hrf, hr2]
      rw [← this]
      exact hrrec

/-- C4, witness: the fill-limit characterization evaluated on a 600-second
group of two records upsampled to 60 seconds (k = 10). -/
theorem c4_harmonize_group_witness :
    (0 < 60) ∧
    ((harmonizeGroup 60 (10 * 60) (toSeries [(600, 7), (1200, 8)])).map Prod.fst
        = (dateRange ((600 : Int) - ((10 * 60 : ℕ) : Int))
            (([((1200 : Int), (8 : ℚ))].getLastD (600, 7)).1) 60).drop 1 ∧
      ((600 : Int) - ((10 * 60 : ℕ) : Int)) ∉
        (harmonizeGroup 60 (10 * 60) (toSeries [(600, 7), (1200, 8)])).map Prod.fst ∧
      ∀ p ∈ harmonizeGroup 60 (10 * 60) (toSeries [(600, 7), (1200, 8)]),
        p.2 = backProp [(600, 7), (1200, 8)] (10 - 1) 60 p.1) :=
  ⟨by decide,
   c4_harmonize_group 60 10 (by decide) (600, 7) [(1200, 8)] (by decide)
     (by
       intro r hr
       rcases List.mem_cons.mp hr with h | h
       · exact ⟨0, by rw [h]; decide⟩
       · rcases List.mem_cons.mp h with h2 | h2
         · exact ⟨10, by rw [h2]; decide⟩
         · simp at h2)⟩

/-- C5, witness: the rejection statement evaluated on counts where the
600-second group holds 1 of 10001 records (0.0099…% < 0.01%). -/
theorem c5_freq_rejection_witness :
    (([(60, 10000), (600, 1)] : List (ℕ × ℕ)).map Prod.fst).Nodup ∧
    ((∀ p ∈ ([(60, 10000), (600, 1)] : List (ℕ × ℕ)),
        freqPerc [(60, 10000), (600, 1)] p.2 < 1 / 100 →
        p.1 ∉ usedFreqs [(60, 10000), (600, 1)] ∧
        ∀ r ∈ filterData ([(60, 60, some 1), (600, 600, some 3)] : List FreqRecord)
            (usedFreqs [(60, 10000), (600, 1)]), r.1 ≠ p.1) ∧
      ∀ (f0 : ℕ) (s : Int) (v : ℚ), (s, some v) ∈ harmonizeGroup 60 f0
          (rowsOfFreq (filterData
            ([(60, 60, some 1), (600, 600, some 3)] : List FreqRecord)
            (usedFreqs [(60, 10000), (600, 1)])) f0) →
        f0 ∈ usedFreqs [(60, 10000), (600, 1)] ∧
        ∃ ts : Int,
          (f0, ts, some v) ∈
            ([(60, 60, some 1), (600, 600, some 3)] : List FreqRecord)) :=
  ⟨by decide,
   c5_freq_rejection [(60, 10000), (600, 1)]
     [(60, 60, some 1), (600, 600, some 3)] 60 (by decide)⟩
